import Mathlib

/-!
# Verification of the network-insight resilient resolution layer

Shallow embedding of the core of the `network-insight` repository:
the TTL cache (`getCached`/`setCached`), the retry/backoff utility
(`retry` in `src/utils/helpers.ts`), the provider fallback loops
(`IpManager.getPublicIp`, `LocationManager.getLocation`), the
client-address extraction heuristic (`IpManager.getClientIp`), the
IP-literal validators (`IpManager.fallbackIpValidation`,
`LocationManager.isValidIp`) and the aggregation entry points
(`NetworkService.getFullNetworkInfo`, `NetworkService.healthCheck`).

JavaScript strings are embedded as `List Char` (wrapped in `String` at
the interfaces); JavaScript regular-expression tests are embedded as
the equivalent character-list predicates; the external HTTP transport
(axios) is an oracle argument; `Date.now()` is an explicit `now : Nat`
argument; thrown exceptions are `Except` errors.
-/

namespace NetworkInsight

/-! ## Character-list primitives (JS string operations) -/

/-- JS `"0"-"9"` digit test (the regex class `\d`). -/
def isDigitChar (c : Char) : Bool := decide ('0' ≤ c) && decide (c ≤ '9')

/-- JS hex-digit test (the regex class `[0-9a-fA-F]`). -/
def isHexDigitJS (c : Char) : Bool :=
  isDigitChar c || (decide ('a' ≤ c) && decide (c ≤ 'f')) || (decide ('A' ≤ c) && decide (c ≤ 'F'))

/-- JS `s.split(sep)` for a one-character separator: the list of
(possibly empty) chunks between occurrences of `sep`. -/
def splitOnChar (sep : Char) : List Char → List (List Char)
  | [] => [[]]
  | c :: cs =>
    let r := splitOnChar sep cs
    if c = sep then [] :: r
    else
      match r with
      | [] => [[c]]
      | g :: gs => (c :: g) :: gs

/-- Number of occurrences of a character (JS `(s.match(/c/g) || []).length`). -/
def countChar (x : Char) : List Char → Nat
  | [] => 0
  | c :: cs => (if c = x then 1 else 0) + countChar x cs

/-- Number of non-overlapping occurrences of `"::"`, scanning left to
right (JS `(s.match(/::/g) || []).length`). -/
def countDoubleColon : List Char → Nat
  | [] => 0
  | [_] => 0
  | c1 :: c2 :: rest =>
    if c1 = ':' && c2 = ':' then countDoubleColon rest + 1
    else countDoubleColon (c2 :: rest)

/-- Split at the first occurrence of `"::"`: `some (a, b)` with the
input equal to `a ++ "::" ++ b`, or `none` when `"::"` does not occur. -/
def splitFirstDoubleColon : List Char → Option (List Char × List Char)
  | [] => none
  | [_] => none
  | c1 :: c2 :: rest =>
    if c1 = ':' && c2 = ':' then some ([], rest)
    else
      match splitFirstDoubleColon (c2 :: rest) with
      | none => none
      | some (a, b) => some (c1 :: a, b)

/-- JS `s.split(sep)[0]`: the chunk before the first occurrence of `sep`. -/
def jsSplitHead (sep : Char) (l : List Char) : List Char :=
  l.takeWhile (fun c => !(c = sep : Bool))

/-- `pre` is a prefix of the second argument (JS `s.startsWith(pre)`). -/
def startsWithL : List Char → List Char → Bool
  | [], _ => true
  | _ :: _, [] => false
  | p :: ps, c :: cs => (p = c : Bool) && startsWithL ps cs

/-- Replace the first occurrence of `pat` (JS `s.replace(pat, "")`
specialised to an empty replacement, which is the only use in the source). -/
def replaceFirstL (pat : List Char) : List Char → List Char
  | [] => []
  | c :: cs =>
    if startsWithL pat (c :: cs) then (c :: cs).drop pat.length
    else c :: replaceFirstL pat cs

/-- JS whitespace test for `String.prototype.trim` (the characters that
occur in this codebase's data). -/
def isJsWs (c : Char) : Bool := (c = ' ' : Bool) || (c = '\t' : Bool) || (c = '\n' : Bool) || (c = '\r' : Bool)

/-- JS `s.trim()`. -/
def trimL (l : List Char) : List Char :=
  ((l.dropWhile isJsWs).reverse.dropWhile isJsWs).reverse

/-- Decimal value of an all-digit chunk (JS `parseInt(s, 10)` on the
strings that pass the digit regexes guarding its uses). -/
def parseDigits (l : List Char) : Nat :=
  l.foldl (fun acc c => acc * 10 + (c.toNat - 48)) 0

/-- Decimal digit character for `n < 10`. -/
def digitChar (n : Nat) : Char := Char.ofNat (48 + n)

/-- Fuel-driven canonical decimal rendering; fuel is always sufficient
at `n + 1`. -/
def natToDigitsAux : Nat → Nat → List Char → List Char
  | 0, _, acc => acc
  | fuel + 1, n, acc =>
    if n < 10 then digitChar n :: acc
    else natToDigitsAux fuel (n / 10) (digitChar (n % 10) :: acc)

/-- Canonical decimal rendering of a natural number
(JS `Number.prototype.toString` on the integers in range here). -/
def natToDigits (n : Nat) : List Char := natToDigitsAux (n + 1) n []

/-! ## IP-literal validators (from the source) -/

/-- Embeds the test of `/^(\d{1,3})\.(\d{1,3})\.(\d{1,3})\.(\d{1,3})$/`
from `IpManager.fallbackIpValidation` (and the identical
`/^(\d{1,3}\.){3}\d{1,3}$/` of `LocationManager.isValidIp`): exactly
four dot-separated chunks of one to three digits. -/
def ipv4RegexTest (l : List Char) : Bool :=
  let parts := splitOnChar '.' l
  (parts.length = 4 : Bool) && parts.all fun p =>
    decide (1 ≤ p.length) && decide (p.length ≤ 3) && p.all isDigitChar

/-- Embeds the test of `/^[0-9a-fA-F:]+$/` from
`IpManager.fallbackIpValidation`. -/
def ipv6RegexTest (l : List Char) : Bool :=
  !(l.isEmpty) && l.all fun c => isHexDigitJS c || (c = ':' : Bool)

/-- One to four hex digits: the test of `/^[0-9a-fA-F]{1,4}$/`. -/
def isHexGroup (p : List Char) : Bool :=
  decide (1 ≤ p.length) && decide (p.length ≤ 4) && p.all isHexDigitJS

/-- `IpManager.fallbackIpValidation` on the underlying character list
(IpManager.ts lines 119-151).  The IPv4 branch checks each octet with
`num >= 0 && num <= 255 && octet === num.toString()` (the `num >= 0`
conjunct is vacuous over `Nat`); the IPv6 branch checks the character
class, the colon count, the number of `::` matches, and each non-empty
colon chunk. -/
def fallbackIpValidationL (l : List Char) : Bool :=
  if ipv4RegexTest l then
    (splitOnChar '.' l).all fun octet =>
      decide (parseDigits octet ≤ 255) && (octet = natToDigits (parseDigits octet) : Bool)
  else if ipv6RegexTest l && l.any (fun c => (c = ':' : Bool)) then
    if countChar ':' l < 2 || 7 < countChar ':' l then false
    else if 1 < countDoubleColon l then false
    else (splitOnChar ':' l).all fun part => part.isEmpty || isHexGroup part
  else false

/-- `IpManager.fallbackIpValidation` on a `String`. -/
def fallbackIpValidation (s : String) : Bool := fallbackIpValidationL s.data

namespace LocationManager

/-- `LocationManager.isValidIp` (LocationManager.ts lines 92-96):
`/^(\d{1,3}\.){3}\d{1,3}$/.test(ip) || /^([0-9a-fA-F]{1,4}:){7}[0-9a-fA-F]{1,4}$/.test(ip)` —
a shape check only, with no octet-range or canonical-text constraint. -/
def isValidIp (s : String) : Bool :=
  ipv4RegexTest s.data ||
    (let parts := splitOnChar ':' s.data
     (parts.length = 8 : Bool) && parts.all isHexGroup)

end LocationManager

/-! ## Spec-side validity definitions (for comparison with the code) -/

/-- Modelled from the spec: "a string is a valid IPv4 literal iff it is
four dot-separated decimal groups, each in `[0,255]`, with no
leading-zero-induced reinterpretation ambiguity (i.e., the canonical
decimal string of the parsed number must equal the original group
text)". -/
def specIPv4 (l : List Char) : Bool :=
  let parts := splitOnChar '.' l
  (parts.length = 4 : Bool) && parts.all fun p =>
    !(p.isEmpty) && p.all isDigitChar && decide (parseDigits p ≤ 255) &&
      (p = natToDigits (parseDigits p) : Bool)

/-- Groups of a side of a `::` compression: all chunks must be 1-4 hex
digits (an empty chunk means a stray colon, which standard notation
forbids). -/
def sideGroupsOK (side : List Char) : Bool :=
  (splitOnChar ':' side).all isHexGroup

/-- Number of groups contributed by one side of a `::` compression. -/
def sideCount (side : List Char) : Nat :=
  if side.isEmpty then 0 else (splitOnChar ':' side).length

/-- Modelled from the spec: "a string is a valid IPv6 literal iff it
conforms to standard colon-hex notation including the `::` zero-run
compression, with at most one `::` occurrence and each non-empty group
being 1-4 hex digits" — i.e. either eight colon-separated hex groups,
or a single `::` with the surrounding explicit groups numbering at most
seven (the compression stands for at least one zero group). -/
def specIPv6 (l : List Char) : Bool :=
  match splitFirstDoubleColon l with
  | none =>
    let parts := splitOnChar ':' l
    (parts.length = 8 : Bool) && parts.all isHexGroup
  | some (a, b) =>
    (splitFirstDoubleColon b = none : Bool) &&
    (a.isEmpty || sideGroupsOK a) && (b.isEmpty || sideGroupsOK b) &&
    decide (sideCount a + sideCount b ≤ 7)

/-! ## TTL cache (`getCached` / `setCached`, identical in IpManager.ts
lines 168-193 and LocationManager.ts lines 114-139) -/

/-- The `CacheEntry<T>` interface of `src/types`: `{ data, timestamp, ttl }`. -/
structure CacheEntry (T : Type) where
  data : T
  timestamp : Nat
  ttl : Nat
  deriving Repr, DecidableEq

/-- The `cache` sub-configuration of `NetworkInfoConfig`. -/
structure CacheConfig where
  enabled : Bool
  ttl : Nat
  deriving Repr, DecidableEq

/-- The manager's `Map<string, CacheEntry<any>>`, embedded as an
association list with at most one binding per key. -/
def CacheMap (T : Type) := List (String × CacheEntry T)

/-- `Map.get`. -/
def mapLookup {T : Type} (k : String) : CacheMap T → Option (CacheEntry T)
  | [] => none
  | (k', e) :: rest => if k' = k then some e else mapLookup k rest

/-- `Map.set` (overwrites an existing binding for the key). -/
def mapSet {T : Type} (k : String) (e : CacheEntry T) : CacheMap T → CacheMap T
  | [] => [(k, e)]
  | (k', e') :: rest => if k' = k then (k, e) :: rest else (k', e') :: mapSet k e rest

/-- `Map.delete`. -/
def mapDelete {T : Type} (k : String) : CacheMap T → CacheMap T
  | [] => []
  | (k', e') :: rest => if k' = k then rest else (k', e') :: mapDelete k rest

/-- `getCached<T>(key)`: `null` when caching is disabled or no entry
exists; when the entry's age `now - timestamp` exceeds its `ttl`, the
entry is deleted (lazy expiry) and `null` returned; otherwise the data.
Returns the possibly-shrunk map alongside the result. -/
def getCached {T : Type} (cfg : CacheConfig) (cache : CacheMap T) (now : Nat) (key : String) :
    Option T × CacheMap T :=
  if cfg.enabled then
    match mapLookup key cache with
    | none => (none, cache)
    | some e => if e.ttl < now - e.timestamp then (none, mapDelete key cache) else (some e.data, cache)
  else (none, cache)

/-- JS `ttl || this.config.cache.ttl`: the argument when given and
non-zero (zero is falsy), else the configured TTL. -/
def ttlOrDefault (ttlArg : Option Nat) (dflt : Nat) : Nat :=
  match ttlArg with
  | none => dflt
  | some t => if t = 0 then dflt else t

/-- `setCached<T>(key, data, ttl?)`: a no-op when caching is disabled;
otherwise stores `{ data, timestamp: Date.now(), ttl: ttl || config.cache.ttl }`. -/
def setCached {T : Type} (cfg : CacheConfig) (cache : CacheMap T) (now : Nat) (key : String)
    (data : T) (ttlArg : Option Nat) : CacheMap T :=
  if cfg.enabled then mapSet key ⟨data, now, ttlOrDefault ttlArg cfg.ttl⟩ cache
  else cache

/-! ## Retry utility (`retry` in src/utils/helpers.ts, unnamed/part_002
lines 147-166) -/

/-- Observable behaviour of one `retry` run: how many times the
operation was invoked, the delays awaited between attempts, and the
outcome.  The error is an `Option` because the source throws the
(possibly still `undefined`) `lastError` variable. -/
structure RetryOutcome (E V : Type) where
  calls : Nat
  delays : List Nat
  result : Except (Option E) V

/-- The `for (let attempt = 0; attempt < maxRetries; attempt++)` loop of
`retry`; `op i` is the outcome of the `i`-th invocation of `operation`.
On failure, when `attempt < maxRetries - 1` (i.e. more attempts remain),
it awaits `delayMs * 2 ** attempt` and retries; after the last attempt
it throws the last error. -/
def retryLoop {E V : Type} (op : Nat → Except E V) (delayMs : Nat) :
    Nat → Nat → Option E → RetryOutcome E V
  | _, 0, last => ⟨0, [], .error last⟩
  | attempt, remaining + 1, _ =>
    match op attempt with
    | .ok v => ⟨1, [], .ok v⟩
    | .error e =>
      if remaining = 0 then ⟨1, [], .error (some e)⟩
      else
        let rest := retryLoop op delayMs (attempt + 1) remaining (some e)
        ⟨rest.calls + 1, delayMs * 2 ^ attempt :: rest.delays, rest.result⟩

/-- `retry(operation, maxRetries, delayMs)`. -/
def retry {E V : Type} (op : Nat → Except E V) (maxRetries delayMs : Nat) : RetryOutcome E V :=
  retryLoop op delayMs 0 maxRetries none

/-! ## Public-IP fallback chain (`IpManager.getPublicIp`,
IpManager.ts lines 20-61) -/

/-- JS truthiness of `cached` for a string-valued cache read:
`null`/`undefined` and the empty string are falsy. -/
def truthyOptStr : Option String → Bool
  | none => false
  | some s => !(s.isEmpty)

/-- The `response.data` an IP provider may deliver: a raw string body, a
JSON object (whose `ip` field may be absent), or a falsy body. -/
inductive IpRespData
  | strData (s : String)
  | objData (ip : Option String)
  | nullData
  deriving Repr, DecidableEq

/-- Candidate extraction from one provider response, per the body of the
`for` loop: a string body is trimmed; an object body contributes its
truthy `ip` field; anything else means `continue`. -/
def extractIpCandidate : IpRespData → Option String
  | .strData s => some ⟨trimL s.data⟩
  | .objData (some ip) => if ip.isEmpty then none else some ip
  | .objData none => none
  | .nullData => none

/-- `IpManager.isValidIp`: the source first calls the external Node
`net.isIP` and falls back to `fallbackIpValidation` when the `net`
module is unavailable (the repository's tests exercise exactly this
fallback path); the external capability is outside the modelled core,
so validation is the in-repository fallback validator. -/
def isValidIpIpManager (s : String) : Bool := fallbackIpValidation s

/-- Net effect of one provider attempt: `some ip` when the fetch
succeeded, a candidate was extracted and it validated; `none` when the
attempt failed for any reason (transport error, unusable body, invalid
candidate) and the loop continues. `fetch p = none` is a transport
error/timeout (the `catch` path). -/
def ipAttempt (fetch : String → Option IpRespData) (p : String) : Option String :=
  match fetch p with
  | none => none
  | some body =>
    match extractIpCandidate body with
    | none => none
    | some ip => if isValidIpIpManager ip then some ip else none

/-- The provider `for` loop of `getPublicIp`, instrumented with the list
of providers contacted, in order. -/
def publicIpLoop (fetch : String → Option IpRespData) : List String → List String × Option String
  | [] => ([], none)
  | p :: rest =>
    match ipAttempt fetch p with
    | some ip => ([p], some ip)
    | none =>
      let r := publicIpLoop fetch rest
      (p :: r.1, r.2)

/-- The hardcoded provider list of `getPublicIp`. -/
def publicIpProviders : List String :=
  ["https://api.ipify.org?format=json", "https://api64.ipify.org?format=json",
   "https://icanhazip.com"]

/-- `IpManager.getPublicIp`: cache read under key `"public-ip"` (with
JS truthiness on the cached string), then the provider loop; the first
valid candidate is cached and returned; exhaustion throws
`"All IP service providers failed"`.  Returns the contacted providers,
the outcome, and the final cache. -/
def getPublicIp (cfg : CacheConfig) (cache : CacheMap String) (now : Nat)
    (fetch : String → Option IpRespData) (providers : List String) :
    List String × Except String String × CacheMap String :=
  let rd := getCached cfg cache now "public-ip"
  if truthyOptStr rd.1 then ([], .ok (rd.1.getD ""), rd.2)
  else
    match publicIpLoop fetch providers with
    | (cs, some ip) => (cs, .ok ip, setCached cfg rd.2 now "public-ip" ip none)
    | (cs, none) => (cs, .error "All IP service providers failed", rd.2)

/-! ## Geolocation fallback chain (`LocationManager.getLocation`,
LocationManager.ts lines 19-54) -/

/-- The geolocation payload, restricted to the fields
`isValidLocationData` inspects; `some` means the field is present with
the required dynamic type (`string` resp. `number` — the numeric value
itself plays no role in the modelled logic). -/
structure GeolocationData where
  ip : Option String
  country_name : Option String
  latitude : Option Int
  longitude : Option Int
  deriving Repr, DecidableEq

/-- `LocationManager.isValidLocationData`. -/
def isValidLocationData (d : GeolocationData) : Bool :=
  d.ip.isSome && d.country_name.isSome && d.latitude.isSome && d.longitude.isSome

/-- A geolocation provider response: transport failure (the `catch`
path), a falsy body, or a parsed body. -/
inductive GeoResp
  | fail
  | nullBody
  | body (d : GeolocationData)
  deriving Repr, DecidableEq

/-- The request URL of one attempt:
`ip ? provider/ip/json/ : provider/json/` — note the truthiness test is
on the `ip` argument, not on the resolved target IP. -/
def locUrl (p : String) (ipArg : Option String) : String :=
  if truthyOptStr ipArg then p ++ "/" ++ ipArg.getD "" ++ "/json/" else p ++ "/json/"

/-- Net effect of one geolocation provider attempt. -/
def locAttempt (fetch : String → GeoResp) (ipArg : Option String) (p : String) :
    Option GeolocationData :=
  match fetch (locUrl p ipArg) with
  | .fail => none
  | .nullBody => none
  | .body d => if isValidLocationData d then some d else none

/-- The provider `for` loop of `getLocation`, instrumented with the
contacted providers. -/
def locationLoop (fetch : String → GeoResp) (ipArg : Option String) :
    List String → List String × Option GeolocationData
  | [] => ([], none)
  | p :: rest =>
    match locAttempt fetch ipArg p with
    | some d => ([p], some d)
    | none =>
      let r := locationLoop fetch ipArg rest
      (p :: r.1, r.2)

/-- The hardcoded provider list of `getLocation`. -/
def locationProviders : List String := ["https://ipapi.co", "https://ipwho.is", "https://ipinfo.io"]

/-- `LocationManager.getLocation(ip?)`: the target is `ip` when truthy,
otherwise the result of the (external, axios-backed)
`getCurrentPublicIp` — supplied as the oracle `currentIpRes`, whose
failure is `"Failed to get public IP for location lookup"`.  An invalid
target throws `Invalid IP address: <ip>`; then a cache read under
`location-<target>`, the provider loop, caching of the first valid
payload, and `"All geolocation providers failed"` on exhaustion. -/
def getLocation (cfg : CacheConfig) (cache : CacheMap GeolocationData) (now : Nat)
    (fetch : String → GeoResp) (providers : List String)
    (ipArg : Option String) (currentIpRes : Except String String) :
    List String × Except String GeolocationData × CacheMap GeolocationData :=
  match (if truthyOptStr ipArg then .ok (ipArg.getD "") else currentIpRes : Except String String) with
  | .error e => ([], .error e, cache)
  | .ok targetIp =>
    if LocationManager.isValidIp targetIp then
      let key := "location-" ++ targetIp
      let rd := getCached cfg cache now key
      match rd.1 with
      | some c => ([], .ok c, rd.2)
      | none =>
        match locationLoop fetch ipArg providers with
        | (cs, some d) => (cs, .ok d, setCached cfg rd.2 now key d none)
        | (cs, none) => (cs, .error "All geolocation providers failed", rd.2)
    else ([], .error ("Invalid IP address: " ++ targetIp), cache)

/-! ## Client-address extraction (`IpManager.getClientIp`,
IpManager.ts lines 66-99) -/

/-- An HTTP header value as Express delivers it:
`string | string[] | undefined`. -/
inductive HeaderVal
  | absent
  | str (s : String)
  | strs (l : List String)
  deriving Repr, DecidableEq

/-- A JS value the local variable `ip` can hold during `getClientIp`. -/
inductive JsVal
  | undef
  | jstr (s : String)
  | jarr (l : List String)
  deriving Repr, DecidableEq

/-- JS truthiness for the values `ip` can hold (an array is truthy even
when empty; a string is truthy iff non-empty). -/
def JsVal.truthy : JsVal → Bool
  | .undef => false
  | .jstr s => !(s.isEmpty)
  | .jarr _ => true

/-- JS `a || b` restricted to these values. -/
def jsOr (a b : JsVal) : JsVal := if a.truthy then a else b

/-- Lift a header value to the JS value it contributes. -/
def HeaderVal.toJsVal : HeaderVal → JsVal
  | .absent => .undef
  | .str s => .jstr s
  | .strs l => .jarr l

/-- Lift an optional string field to a JS value. -/
def optToJsVal : Option String → JsVal
  | none => .undef
  | some s => .jstr s

/-- The request metadata `getClientIp` consumes: the four direct-address
sources of the initial `||` chain, and the three headers. -/
structure ClientReq where
  reqIp : Option String
  connRemote : Option String
  sockRemote : Option String
  connSockRemote : Option String
  xForwardedFor : HeaderVal
  xRealIp : HeaderVal
  xClientIp : HeaderVal
  deriving Repr, DecidableEq

/-- The opening `||` chain of `getClientIp`:
`req.ip || connection?.remoteAddress || socket?.remoteAddress || connection?.socket?.remoteAddress`. -/
def directChain (r : ClientReq) : JsVal :=
  jsOr (optToJsVal r.reqIp) (jsOr (optToJsVal r.connRemote)
    (jsOr (optToJsVal r.sockRemote) (optToJsVal r.connSockRemote)))

/-- The `if (ip && ip.startsWith("::ffff:")) ip = ip.replace("::ffff:", "")`
statement. -/
def stripMapped (v : JsVal) : JsVal :=
  match v with
  | .jstr s =>
    if JsVal.truthy (.jstr s) && startsWithL "::ffff:".data s.data then
      .jstr ⟨replaceFirstL "::ffff:".data s.data⟩
    else .jstr s
  | v => v

/-- The `x-forwarded-for` block, guarded by `if (!ip || ip === "::1")`:
an array contributes `forwarded[0].split(",")[0].trim()` (throwing when
the array is empty, since `forwarded[0]` is then `undefined`), a string
contributes `forwarded.split(",")[0].trim()`, and an absent header
leaves `ip` unchanged. -/
def forwardedStep (xf : HeaderVal) (ip1 : JsVal) : Except String JsVal :=
  if !ip1.truthy || ip1 = .jstr "::1" then
    match xf with
    | .strs [] => .error "TypeError: Cannot read properties of undefined (reading 'split')"
    | .strs (h :: _) => .ok (.jstr ⟨trimL (jsSplitHead ',' h.data)⟩)
    | .str s => .ok (.jstr ⟨trimL (jsSplitHead ',' s.data)⟩)
    | .absent => .ok ip1
  else .ok ip1

/-- The `ip = x-real-ip || x-client-ip || "unknown"` block, guarded by
the second `if (!ip || ip === "::1")`. -/
def headerFallback (xr xc : HeaderVal) (ip2 : JsVal) : JsVal :=
  if !ip2.truthy || ip2 = .jstr "::1" then
    jsOr xr.toJsVal (jsOr xc.toJsVal (.jstr "unknown"))
  else ip2

/-- The final `return ip.split(":")[0]` — throws when `ip` is not a
string (arrays and `undefined` have no `split`). -/
def portStrip (v : JsVal) : Except String String :=
  match v with
  | .jstr s => .ok ⟨jsSplitHead ':' s.data⟩
  | .jarr _ => .error "TypeError: ip.split is not a function"
  | .undef => .error "TypeError: Cannot read properties of undefined (reading 'split')"

/-- `IpManager.getClientIp(req)`, composed of the stages above exactly
in source order: the direct-address `||` chain; the `"::1" → "127.0.0.1"`
early return; the `"::ffff:"` strip; the `x-forwarded-for` block; the
`x-real-ip`/`x-client-ip`/`"unknown"` chain; and the port strip. -/
def getClientIp (r : ClientReq) : Except String String :=
  let ip0 := directChain r
  if ip0 = .jstr "::1" then .ok "127.0.0.1"
  else
    match forwardedStep r.xForwardedFor (stripMapped ip0) with
    | .error e => .error e
    | .ok ip2 => portStrip (headerFallback r.xRealIp r.xClientIp ip2)

/-! ## Aggregation (`NetworkService.getFullNetworkInfo` and
`NetworkService.healthCheck`, IpManager.ts part lines 322-390) -/

/-- The `ApiResponse<T>` shape of `src/types`. -/
structure ApiResponse (T : Type) where
  success : Bool
  data : Option T
  error : Option String
  timestamp : String

/-- The `NetworkInterfaceInfo` shape of `src/types` (opaque to the
aggregation logic; carried through unchanged). -/
structure NetworkInterfaceInfo where
  address : String
  netmask : String
  family : String
  mac : String
  internal : Bool
  cidr : Option String
  deriving Repr, DecidableEq

/-- The payload of a successful `getFullNetworkInfo`. -/
structure FullNetworkInfo where
  publicIp : String
  location : GeolocationData
  interfaces : List (String × List NetworkInterfaceInfo)
  externalAddresses : List String

/-- The `Promise.all` inside `getFullNetworkInfo`: the async public-IP
and location resolutions may reject; the interface enumeration and
external-address listing are synchronous values.  When a resolution
rejects, the whole aggregate rejects with that rejection and no partial
data survives.  (When both reject, `Promise.all` surfaces whichever
rejection settles first; the model takes the public-IP one — the
claims under verification concern runs with a single failing kind.) -/
def fullInfoAggregate (ipRes : Except String String) (locRes : Except String GeolocationData)
    (ifaces : List (String × List NetworkInterfaceInfo)) (ext : List String) :
    Except String FullNetworkInfo :=
  match ipRes with
  | .error e => .error e
  | .ok ip =>
    match locRes with
    | .error e => .error e
    | .ok loc => .ok ⟨ip, loc, ifaces, ext⟩

/-- `NetworkService.getFullNetworkInfo`: the `try/catch` around the
aggregate converts a rejection into a returned
`{ success: false, data: null, error: <message> }` response — the
method itself never rejects. -/
def getFullNetworkInfo (ipRes : Except String String) (locRes : Except String GeolocationData)
    (ifaces : List (String × List NetworkInterfaceInfo)) (ext : List String)
    (ts : String) : ApiResponse FullNetworkInfo :=
  match fullInfoAggregate ipRes locRes ifaces ext with
  | .ok d => ⟨true, some d, none, ts⟩
  | .error e => ⟨false, none, some e, ts⟩

/-- The payload of `NetworkService.healthCheck`. -/
structure HealthData where
  ipServices : Bool
  geolocationServices : Bool
  networkInfo : Bool
  deriving Repr, DecidableEq

/-- `IpManager.healthCheck` / `LocationManager.healthCheck`: probe one
fixed endpoint, `true` on success and `false` on any failure (these
never throw). -/
def managerHealthCheck (probe : Except String Unit) : Bool :=
  match probe with
  | .ok _ => true
  | .error _ => false

/-- `NetworkService.healthCheck`: both manager probes always settle, so
the `try` branch always returns `success: true` with the per-kind
booleans (`networkInfo` is hardcoded `true`). -/
def healthCheck (ipProbe locProbe : Except String Unit) (ts : String) : ApiResponse HealthData :=
  ⟨true, some ⟨managerHealthCheck ipProbe, managerHealthCheck locProbe, true⟩, none, ts⟩

/-! ## Concrete sample data and oracles (used by the witnesses) -/

/-- A concrete valid geolocation payload used in the aggregation
theorems. -/
def geoSample : GeolocationData := ⟨some "203.0.113.195", some "United States", some 40, some 74⟩

/-- Oracle for the C1 witness: the first public-IP provider times out,
the second returns a JSON body with a valid address, the third would
return an unusable body. -/
def fetchPubWitness : String → Option IpRespData := fun p =>
  if p = "https://api.ipify.org?format=json" then none
  else if p = "https://api64.ipify.org?format=json" then some (.objData (some "203.0.113.195"))
  else some .nullData

/-- A valid geolocation payload for the C1 witness. -/
def geoWitnessData : GeolocationData := ⟨some "8.8.8.8", some "United States", some 37, some 122⟩

/-- Oracle for the C1 witness, geolocation side: the first provider
fails in transport, the second returns a valid payload. -/
def fetchLocWitness : String → GeoResp := fun url =>
  if url = "https://ipapi.co/8.8.8.8/json/" then .fail
  else if url = "https://ipwho.is/8.8.8.8/json/" then .body geoWitnessData
  else .fail

/-! ## Map lemmas -/

theorem mapLookup_mapSet_self {T : Type} (k : String) (e : CacheEntry T) (m : CacheMap T) :
    mapLookup k (mapSet k e m) = some e := by
  induction m with
  | nil => simp [mapSet, mapLookup]
  | cons p rest ih =>
    obtain ⟨k', e'⟩ := p
    by_cases h : k' = k
    · simp [mapSet, mapLookup, h]
    · simp [mapSet, mapLookup, h, ih]

theorem mapLookup_eq_none_of_not_memKeys {T : Type} (k : String) (m : CacheMap T)
    (h : k ∉ m.map Prod.fst) : mapLookup k m = none := by
  induction m with
  | nil => simp [mapLookup]
  | cons p rest ih =>
    obtain ⟨k', e'⟩ := p
    simp only [List.map_cons, List.mem_cons] at h
    push_neg at h
    have hk : ¬ k' = k := fun hh => h.1 hh.symm
    simp [mapLookup, hk, ih h.2]

theorem mapLookup_mapDelete_self {T : Type} (k : String) (m : CacheMap T)
    (hnd : (m.map Prod.fst).Nodup) : mapLookup k (mapDelete k m) = none := by
  induction m with
  | nil => simp [mapDelete, mapLookup]
  | cons p rest ih =>
    obtain ⟨k', e'⟩ := p
    simp only [List.map_cons, List.nodup_cons] at hnd
    by_cases h : k' = k
    · subst h
      simp [mapDelete, mapLookup_eq_none_of_not_memKeys k' rest hnd.1]
    · simp [mapDelete, mapLookup, h, ih hnd.2]

/-! ## C3: cache round-trip and lazy expiry -/

/-- C3: with the cache enabled, `setCached k v` followed immediately by
`getCached k` returns `v`; an entry whose age `now - timestamp` strictly
exceeds its `ttl` makes `getCached` return absent and delete the entry
as a side effect (so a subsequent lookup misses); an entry whose age is
at most its `ttl` is still returned. -/
theorem cache_roundtrip_and_lazy_expiry {T : Type} (cfg : CacheConfig) (cache : CacheMap T)
    (now now' : Nat) (k : String) (v : T) (ttlArg : Option Nat)
    (henabled : cfg.enabled = true) (hnd : (cache.map Prod.fst).Nodup) :
    (getCached cfg (setCached cfg cache now k v ttlArg) now k).1 = some v
    ∧ (∀ e : CacheEntry T, mapLookup k cache = some e → e.ttl < now' - e.timestamp →
        getCached cfg cache now' k = (none, mapDelete k cache)
          ∧ mapLookup k (mapDelete k cache) = none)
    ∧ (∀ e : CacheEntry T, mapLookup k cache = some e → now' - e.timestamp ≤ e.ttl →
        getCached cfg cache now' k = (some e.data, cache)) := by
  refine ⟨?_, ?_, ?_⟩
  · simp [getCached, setCached, henabled, mapLookup_mapSet_self]
  · intro e he hexp
    refine ⟨?_, mapLookup_mapDelete_self k cache hnd⟩
    simp [getCached, henabled, he, hexp]
  · intro e he hfresh
    simp [getCached, henabled, he, Nat.not_lt.mpr hfresh]

/-- Witness for C3 at a concrete instance: a string entry under key
`"public-ip"`, stored at time 1000 with TTL 300000, still live at age
300000 and expired (and evicted) at age 300001. -/
theorem cache_roundtrip_and_lazy_expiry_witness :
    (getCached ⟨true, 300000⟩ (setCached ⟨true, 300000⟩ [] 1000 "public-ip" "1.2.3.4" none)
        1000 "public-ip").1 = some "1.2.3.4"
    ∧ getCached ⟨true, 300000⟩ [("public-ip", ⟨"1.2.3.4", 1000, 300000⟩)] 301001 "public-ip"
        = (none, mapDelete "public-ip" [("public-ip", ⟨"1.2.3.4", 1000, 300000⟩)])
    ∧ mapLookup "public-ip"
        (mapDelete "public-ip" [("public-ip", (⟨"1.2.3.4", 1000, 300000⟩ : CacheEntry String))])
        = none
    ∧ getCached ⟨true, 300000⟩ [("public-ip", ⟨"1.2.3.4", 1000, 300000⟩)] 301000 "public-ip"
        = (some "1.2.3.4", [("public-ip", ⟨"1.2.3.4", 1000, 300000⟩)]) := by
  have h1 := cache_roundtrip_and_lazy_expiry (T := String) ⟨true, 300000⟩ [] 1000 1000
    "public-ip" "1.2.3.4" none rfl (by simp)
  have h2 := cache_roundtrip_and_lazy_expiry (T := String) ⟨true, 300000⟩
    [("public-ip", ⟨"1.2.3.4", 1000, 300000⟩)] 1000 301001 "public-ip" "x" none rfl (by simp)
  have h3 := cache_roundtrip_and_lazy_expiry (T := String) ⟨true, 300000⟩
    [("public-ip", ⟨"1.2.3.4", 1000, 300000⟩)] 1000 301000 "public-ip" "x" none rfl (by simp)
  have e2 := h2.2.1 ⟨"1.2.3.4", 1000, 300000⟩ (by decide) (by decide)
  exact ⟨h1.1, e2.1, e2.2, h3.2.2 ⟨"1.2.3.4", 1000, 300000⟩ (by decide) (by decide)⟩

/-! ## C4: retry with exponential backoff -/

theorem retryLoop_calls_le {E V : Type} (op : Nat → Except E V) (d : Nat) :
    ∀ remaining attempt last, (retryLoop op d attempt remaining last).calls ≤ remaining := by
  intro remaining
  induction remaining with
  | zero => intro attempt last; simp [retryLoop]
  | succ r ih =>
    intro attempt last
    simp only [retryLoop]
    cases op attempt with
    | ok v => simp
    | error e =>
      by_cases hr : r = 0
      · simp [hr]
      · simpa [hr] using Nat.succ_le_succ (ih (attempt + 1) (some e))

theorem backoff_cons_range (d attempt k : Nat) :
    d * 2 ^ attempt :: (List.range k).map (fun i => d * 2 ^ (attempt + 1 + i))
      = (List.range (k + 1)).map (fun i => d * 2 ^ (attempt + i)) := by
  rw [List.range_succ_eq_map, List.map_cons, List.map_map]
  have h2 : ((fun i => d * 2 ^ (attempt + i)) ∘ Nat.succ) = fun i => d * 2 ^ (attempt + 1 + i) := by
    funext i
    have harith : attempt + Nat.succ i = attempt + 1 + i := by omega
    simp only [Function.comp]
    rw [harith]
  rw [h2]
  simp

theorem retryLoop_all_fail {E V : Type} (op : Nat → Except E V) (d : Nat) :
    ∀ remaining attempt last, 1 ≤ remaining →
      (∀ j, j < remaining → ∃ e, op (attempt + j) = .error e) →
      (retryLoop op d attempt remaining last).calls = remaining
      ∧ (retryLoop op d attempt remaining last).delays
          = (List.range (remaining - 1)).map (fun i => d * 2 ^ (attempt + i))
      ∧ ∀ e, op (attempt + remaining - 1) = .error e →
          (retryLoop op d attempt remaining last).result = .error (some e) := by
  intro remaining
  induction remaining with
  | zero => intro attempt last h; omega
  | succ r ih =>
    intro attempt last _
    intro hfail
    obtain ⟨e0, he0⟩ := hfail 0 (Nat.succ_pos r)
    rw [Nat.add_zero] at he0
    by_cases hr : r = 0
    · subst hr
      refine ⟨?_, ?_, ?_⟩
      · simp [retryLoop, he0]
      · simp [retryLoop, he0]
      · intro e he
        simp only [Nat.add_sub_cancel] at he
        rw [he0] at he
        simp only [Except.error.injEq] at he
        simp [retryLoop, he0, he]
    · have ihr := ih (attempt + 1) (some e0) (Nat.one_le_iff_ne_zero.mpr hr)
        (fun j hj => by
          have := hfail (j + 1) (Nat.succ_lt_succ hj)
          simpa [Nat.add_assoc, Nat.add_comm 1 j] using this)
      have hr1 : r - 1 + 1 = r + 1 - 1 := by omega
      refine ⟨?_, ?_, ?_⟩
      · simp only [retryLoop, if_neg hr, he0]
        simp [ihr.1]
      · simp only [retryLoop, if_neg hr, he0]
        rw [ihr.2.1, backoff_cons_range, hr1]
      · intro e he
        simp only [retryLoop, if_neg hr, he0]
        refine ihr.2.2 e ?_
        have harith : attempt + 1 + r - 1 = attempt + (r + 1) - 1 := by omega
        rw [harith]
        exact he

theorem retryLoop_first_success {E V : Type} (op : Nat → Except E V) (d : Nat) :
    ∀ k remaining attempt last v, k < remaining → op (attempt + k) = .ok v →
      (∀ j, j < k → ∃ e, op (attempt + j) = .error e) →
      retryLoop op d attempt remaining last
        = ⟨k + 1, (List.range k).map (fun i => d * 2 ^ (attempt + i)), .ok v⟩ := by
  intro k
  induction k with
  | zero =>
    intro remaining attempt last v hk hok _
    obtain ⟨r, rfl⟩ : ∃ r, remaining = r + 1 := ⟨remaining - 1, by omega⟩
    rw [Nat.add_zero] at hok
    simp [retryLoop, hok]
  | succ k ih =>
    intro remaining attempt last v hk hok hfail
    obtain ⟨r, rfl⟩ : ∃ r, remaining = r + 1 := ⟨remaining - 1, by omega⟩
    obtain ⟨e0, he0⟩ := hfail 0 (Nat.succ_pos k)
    rw [Nat.add_zero] at he0
    have hr : r ≠ 0 := by omega
    have ihk := ih r (attempt + 1) (some e0) v (by omega)
      (by
        have harith : attempt + 1 + k = attempt + (k + 1) := by omega
        rw [harith]
        exact hok)
      (fun j hj => by
        have := hfail (j + 1) (Nat.succ_lt_succ hj)
        have harith : attempt + 1 + j = attempt + (j + 1) := by omega
        rw [harith]
        exact this)
    simp only [retryLoop, if_neg hr, he0, ihk]
    rw [RetryOutcome.mk.injEq]
    refine ⟨rfl, backoff_cons_range d attempt k, rfl⟩

/-- C4: `retry(operation, maxRetries, baseDelay)` with `maxRetries ≥ 1`
invokes the operation at most `maxRetries` times; a success at the
(zero-based) `k`-th invocation, after `k` failures, is returned
unchanged after delays `baseDelay * 2^0, …, baseDelay * 2^(k-1)`; a
permanently failing operation is invoked exactly `maxRetries` times
with delays `baseDelay * 2^i` for `i < maxRetries - 1` and the final
attempt's error is propagated unchanged; `maxRetries = 1` means no
delay. -/
theorem retry_backoff_correct {E V : Type} (op : Nat → Except E V) (mr d : Nat)
    (hmr : 1 ≤ mr) :
    (retry op mr d).calls ≤ mr
    ∧ (∀ k v, k < mr → op k = .ok v → (∀ j, j < k → ∃ e, op j = .error e) →
        retry op mr d = ⟨k + 1, (List.range k).map (fun i => d * 2 ^ i), .ok v⟩)
    ∧ ((∀ j, j < mr → ∃ e, op j = .error e) →
        (retry op mr d).calls = mr
        ∧ (retry op mr d).delays = (List.range (mr - 1)).map (fun i => d * 2 ^ i)
        ∧ ∀ e, op (mr - 1) = .error e → (retry op mr d).result = .error (some e))
    ∧ (mr = 1 → (retry op mr d).delays = []) := by
  refine ⟨retryLoop_calls_le op d mr 0 none, ?_, ?_, ?_⟩
  · intro k v hk hok hfail
    have := retryLoop_first_success op d k mr 0 none v hk (by simpa using hok)
      (fun j hj => by simpa using hfail j hj)
    simpa [retry] using this
  · intro hfail
    have := retryLoop_all_fail op d mr 0 none hmr (fun j hj => by simpa using hfail j hj)
    refine ⟨this.1, by simpa [retry] using this.2.1, fun e he => this.2.2 e (by simpa using he)⟩
  · rintro rfl
    simp only [retry, retryLoop]
    cases h : op 0 with
    | ok v => simp
    | error e => simp

/-- Witness for C4: the permanently failing operation with
`maxRetries = 3, baseDelay = 100` is invoked exactly 3 times, waits
100 then 200 between attempts, and propagates the final error; and
with `maxRetries = 1` a succeeding operation's value comes back with no
delay. -/
theorem retry_backoff_correct_witness :
    (retry (fun _ => (.error "boom" : Except String Nat)) 3 100).calls = 3
    ∧ (retry (fun _ => (.error "boom" : Except String Nat)) 3 100).delays = [100, 200]
    ∧ (retry (fun _ => (.error "boom" : Except String Nat)) 3 100).result
        = .error (some "boom")
    ∧ retry (fun _ => (.ok 7 : Except String Nat)) 1 100 = ⟨1, [], .ok 7⟩ := by
  have h := (retry_backoff_correct (fun _ => (.error "boom" : Except String Nat)) 3 100
    (by omega)).2.2.1 (fun j _ => ⟨"boom", rfl⟩)
  have h1 := (retry_backoff_correct (fun _ => (.ok 7 : Except String Nat)) 1 100
    (by omega)).2.1 0 7 (by omega) rfl (fun j hj => by omega)
  refine ⟨h.1, ?_, h.2.2 "boom" rfl, by simpa using h1⟩
  rw [h.2.1]
  rfl

/-! ## C8: client-address normalization (concrete cases) -/

/-- C8: direct address `"::1"` yields `"127.0.0.1"`; direct address
`"::ffff:192.168.1.100"` yields the embedded `"192.168.1.100"`; with no
direct address and `x-forwarded-for: "203.0.113.195, 70.41.3.18"` the
first entry `"203.0.113.195"` is returned; with no address anywhere the
sentinel `"unknown"` is returned. -/
theorem client_ip_normalization :
    getClientIp ⟨some "::1", none, none, none, .absent, .absent, .absent⟩ = .ok "127.0.0.1"
    ∧ getClientIp ⟨some "::ffff:192.168.1.100", none, none, none, .absent, .absent, .absent⟩
        = .ok "192.168.1.100"
    ∧ getClientIp ⟨none, none, none, none, .str "203.0.113.195, 70.41.3.18", .absent, .absent⟩
        = .ok "203.0.113.195"
    ∧ getClientIp ⟨none, none, none, none, .absent, .absent, .absent⟩ = .ok "unknown" := by
  exact ⟨rfl, rfl, rfl, rfl⟩

/-! ## C9: aggregation policies -/

/-- Counterexample to C9 as stated: with the public-IP kind failing and
the location kind succeeding, the internal `Promise.all` aggregate does
reject, but `getFullNetworkInfo` *returns* a
`{ success: false, data: null, error: <message> }` response rather than
raising; and `healthCheck` returns per-kind booleans (the failing
kind's `false`), not the failure reason alongside a resolved value. -/
theorem aggregation_raises_counterexample :
    fullInfoAggregate (.error "All IP service providers failed") (.ok geoSample) [] []
      = .error "All IP service providers failed"
    ∧ getFullNetworkInfo (.error "All IP service providers failed") (.ok geoSample) [] [] "t0"
      = ⟨false, none, some "All IP service providers failed", "t0"⟩
    ∧ healthCheck (.error "probe failed") (.ok ()) "t0"
      = ⟨true, some ⟨false, true, true⟩, none, "t0"⟩ := by
  exact ⟨rfl, rfl, rfl⟩

/-- C9 (amended): with one resource kind failing and another
succeeding, best-effort aggregation (`healthCheck`) returns a
`success: true` response whose data marks the failing kind `false` and
the succeeding kind `true` (per-kind booleans — no reason string and no
resolved values), while all-or-nothing aggregation
(`getFullNetworkInfo`) fails the whole call by returning a
`success: false` response carrying the failing kind's error message and
`data: null` (no partial data) — it does not raise. -/
theorem aggregation_best_effort_vs_all_or_nothing
    (e msg : String) (loc : GeolocationData) (ip : String)
    (ifaces : List (String × List NetworkInterfaceInfo)) (ext : List String) (ts : String) :
    getFullNetworkInfo (.error e) (.ok loc) ifaces ext ts = ⟨false, none, some e, ts⟩
    ∧ getFullNetworkInfo (.ok ip) (.error e) ifaces ext ts = ⟨false, none, some e, ts⟩
    ∧ healthCheck (.error msg) (.ok ()) ts = ⟨true, some ⟨false, true, true⟩, none, ts⟩
    ∧ healthCheck (.ok ()) (.error msg) ts = ⟨true, some ⟨true, false, true⟩, none, ts⟩
    ∧ getFullNetworkInfo (.ok ip) (.ok loc) ifaces ext ts
        = ⟨true, some ⟨ip, loc, ifaces, ext⟩, none, ts⟩ := by
  exact ⟨rfl, rfl, rfl, rfl, rfl⟩

/-! ## Client address: supporting lemmas -/

theorem not_mem_jsSplitHead (sep : Char) (l : List Char) : sep ∉ jsSplitHead sep l := by
  intro hmem
  have hp := List.mem_takeWhile_imp hmem
  simp at hp

theorem jsOr_tail_jstr (xc : HeaderVal) (hclient : ∀ l, xc ≠ HeaderVal.strs l) :
    ∃ s, jsOr xc.toJsVal (.jstr "unknown") = .jstr s := by
  cases xc with
  | strs l => exact absurd rfl (hclient l)
  | absent => exact ⟨"unknown", rfl⟩
  | str s =>
    simp only [HeaderVal.toJsVal, jsOr]
    split
    · exact ⟨s, rfl⟩
    · exact ⟨"unknown", rfl⟩

theorem jsOr_header_fallback_jstr (xr xc : HeaderVal)
    (hreal : ∀ l, xr ≠ HeaderVal.strs l) (hclient : ∀ l, xc ≠ HeaderVal.strs l) :
    ∃ s, jsOr xr.toJsVal (jsOr xc.toJsVal (.jstr "unknown")) = .jstr s := by
  cases xr with
  | strs l => exact absurd rfl (hreal l)
  | absent =>
    have hu : jsOr JsVal.undef (jsOr xc.toJsVal (.jstr "unknown"))
        = jsOr xc.toJsVal (.jstr "unknown") := by
      simp [jsOr, JsVal.truthy]
    rw [HeaderVal.toJsVal, hu]
    exact jsOr_tail_jstr xc hclient
  | str s =>
    simp only [HeaderVal.toJsVal, jsOr]
    split
    · exact ⟨s, rfl⟩
    · have := jsOr_tail_jstr xc hclient
      simpa [jsOr] using this

theorem optToJsVal_not_jarr (x : Option String) : ∀ l, optToJsVal x ≠ .jarr l := by
  cases x <;> intro l <;> simp [optToJsVal]

theorem jsOr_not_jarr {a b : JsVal} (ha : ∀ l, a ≠ .jarr l) (hb : ∀ l, b ≠ .jarr l) :
    ∀ l, jsOr a b ≠ .jarr l := by
  intro l
  unfold jsOr
  split
  · exact ha l
  · exact hb l

theorem directChain_not_jarr (r : ClientReq) : ∀ l, directChain r ≠ .jarr l :=
  jsOr_not_jarr (optToJsVal_not_jarr _)
    (jsOr_not_jarr (optToJsVal_not_jarr _)
      (jsOr_not_jarr (optToJsVal_not_jarr _) (optToJsVal_not_jarr _)))

theorem stripMapped_not_jarr {v : JsVal} (hv : ∀ l, v ≠ .jarr l) :
    ∀ l, stripMapped v ≠ .jarr l := by
  cases v with
  | jstr s =>
    intro l
    simp only [stripMapped]
    split <;> simp
  | jarr l0 => exact (hv l0 rfl).elim
  | undef => intro l; simp [stripMapped]

theorem forwardedStep_ok (xf : HeaderVal) (ip1 : JsVal)
    (hfwd : ∀ l, xf = HeaderVal.strs l → l ≠ []) :
    ∃ ip2, forwardedStep xf ip1 = .ok ip2 ∧ (ip2 = ip1 ∨ ∃ s, ip2 = .jstr s) := by
  unfold forwardedStep
  split
  · cases xf with
    | absent => exact ⟨ip1, rfl, Or.inl rfl⟩
    | str s => exact ⟨_, rfl, Or.inr ⟨_, rfl⟩⟩
    | strs l =>
      cases l with
      | nil => exact absurd rfl (hfwd [] rfl)
      | cons h t => exact ⟨_, rfl, Or.inr ⟨_, rfl⟩⟩
  · exact ⟨ip1, rfl, Or.inl rfl⟩

theorem headerFallback_jstr (xr xc : HeaderVal) (ip2 : JsVal)
    (hreal : ∀ l, xr ≠ HeaderVal.strs l) (hclient : ∀ l, xc ≠ HeaderVal.strs l)
    (h2 : ∀ l, ip2 ≠ .jarr l) :
    ∃ s, headerFallback xr xc ip2 = .jstr s := by
  unfold headerFallback
  split
  · exact jsOr_header_fallback_jstr xr xc hreal hclient
  · rename_i hcond
    cases ip2 with
    | jstr s => exact ⟨s, rfl⟩
    | jarr l => exact (h2 l rfl).elim
    | undef => simp [JsVal.truthy] at hcond

/-! ## C7: totality of `getClientIp` -/

/-- Counterexample to C7 as stated: with no direct address and
`x-forwarded-for` present as an *empty* list, `Array.isArray(forwarded)`
holds, `forwarded[0]` is `undefined`, and `.split` on it throws — so
`getClientIp` does raise on this request shape. -/
theorem client_ip_raises_counterexample :
    getClientIp ⟨none, none, none, none, .strs [], .absent, .absent⟩
      = .error "TypeError: Cannot read properties of undefined (reading 'split')" := rfl

/-- C7 (amended): `getClientIp` never raises provided `x-forwarded-for`,
when it is a list, is non-empty, and `x-real-ip` / `x-client-ip` are not
list-valued; under those shapes it always returns a string, and with no
address present anywhere it returns the sentinel `"unknown"`. (With an
empty-list `x-forwarded-for` it throws a TypeError, per the
counterexample.) -/
theorem client_ip_no_raise_amended (r : ClientReq)
    (hfwd : ∀ l, r.xForwardedFor = HeaderVal.strs l → l ≠ [])
    (hreal : ∀ l, r.xRealIp ≠ HeaderVal.strs l)
    (hclient : ∀ l, r.xClientIp ≠ HeaderVal.strs l) :
    (getClientIp r).isOk = true
    ∧ (r = ⟨none, none, none, none, .absent, .absent, .absent⟩ →
        getClientIp r = .ok "unknown") := by
  constructor
  · simp only [getClientIp]
    split
    · rfl
    · obtain ⟨ip2, h2, hshape⟩ :=
        forwardedStep_ok r.xForwardedFor (stripMapped (directChain r)) hfwd
      rw [h2]
      have hnj : ∀ l, ip2 ≠ .jarr l := by
        rcases hshape with h | ⟨s, rfl⟩
        · rw [h]
          exact stripMapped_not_jarr (directChain_not_jarr r)
        · intro l
          simp
      obtain ⟨s, hs⟩ := headerFallback_jstr r.xRealIp r.xClientIp ip2 hreal hclient hnj
      show (portStrip (headerFallback r.xRealIp r.xClientIp ip2)).isOk = true
      rw [hs]
      rfl
  · rintro rfl
    rfl

/-- Witness for C7's amended theorem at two concrete requests. -/
theorem client_ip_no_raise_amended_witness :
    (getClientIp ⟨none, none, none, none, .absent, .absent, .absent⟩).isOk = true
    ∧ getClientIp ⟨none, none, none, none, .absent, .absent, .absent⟩ = .ok "unknown"
    ∧ (getClientIp ⟨some "10.0.0.8:443", none, none, none, .strs ["9.9.9.9"], .str "1.1.1.1",
        .absent⟩).isOk = true := by
  have h1 := client_ip_no_raise_amended ⟨none, none, none, none, .absent, .absent, .absent⟩
    (fun l h => HeaderVal.noConfusion h) (fun l h => HeaderVal.noConfusion h)
    (fun l h => HeaderVal.noConfusion h)
  have h2 := client_ip_no_raise_amended ⟨some "10.0.0.8:443", none, none, none,
      .strs ["9.9.9.9"], .str "1.1.1.1", .absent⟩
    (fun l h => by cases h; simp) (fun l h => HeaderVal.noConfusion h)
    (fun l h => HeaderVal.noConfusion h)
  exact ⟨h1.1, h1.2 rfl, h2.1⟩

/-! ## C10: the returned client address never contains a colon -/

/-- C10 (implicit claim): every string `getClientIp` returns is free of
`':'` — the final `ip.split(":")[0]` truncates at the first colon (the
`"::1"` early return yields the colon-free `"127.0.0.1"`), so an IPv6
address reaching the final step, e.g. `"2001:db8::1"` via `x-real-ip`,
comes back truncated to `"2001"`. -/
theorem client_ip_colon_free :
    (∀ (r : ClientReq) (s : String), getClientIp r = .ok s → ':' ∉ s.data)
    ∧ getClientIp ⟨none, none, none, none, .absent, .str "2001:db8::1", .absent⟩
        = .ok "2001" := by
  constructor
  · intro r s h
    simp only [getClientIp] at h
    split at h
    · simp only [Except.ok.injEq] at h
      subst h
      decide
    · cases hf : forwardedStep r.xForwardedFor (stripMapped (directChain r)) with
      | error e =>
        rw [hf] at h
        exact Except.noConfusion h
      | ok ip2 =>
        rw [hf] at h
        have h' : portStrip (headerFallback r.xRealIp r.xClientIp ip2) = .ok s := h
        cases hv : headerFallback r.xRealIp r.xClientIp ip2 with
        | jstr s2 =>
          rw [hv] at h'
          have h'' : Except.ok (⟨jsSplitHead ':' s2.data⟩ : String) = Except.ok s := h'
          simp only [Except.ok.injEq] at h''
          subst h''
          exact not_mem_jsSplitHead ':' _
        | jarr l =>
          rw [hv] at h'
          exact Except.noConfusion h'
        | undef =>
          rw [hv] at h'
          exact Except.noConfusion h'
  · rfl

/-- Witness for C10: the concrete truncated return value `"2001"`
contains no colon. -/
theorem client_ip_colon_free_witness : ':' ∉ ("2001" : String).data :=
  client_ip_colon_free.1 ⟨none, none, none, none, .absent, .str "2001:db8::1", .absent⟩
    "2001" client_ip_colon_free.2

/-! ## Fallback-loop lemmas -/

theorem publicIpLoop_skip (fetch : String → Option IpRespData) (p : String) (rest : List String)
    (h : ipAttempt fetch p = none) :
    publicIpLoop fetch (p :: rest)
      = (p :: (publicIpLoop fetch rest).1, (publicIpLoop fetch rest).2) := by
  simp [publicIpLoop, h]

theorem publicIpLoop_hit (fetch : String → Option IpRespData) (p : String) (rest : List String)
    (ip : String) (h : ipAttempt fetch p = some ip) :
    publicIpLoop fetch (p :: rest) = ([p], some ip) := by
  simp [publicIpLoop, h]

theorem publicIpLoop_all_fail (fetch : String → Option IpRespData) :
    ∀ ps : List String, (∀ p ∈ ps, ipAttempt fetch p = none) →
      publicIpLoop fetch ps = (ps, none) := by
  intro ps
  induction ps with
  | nil => intro _; rfl
  | cons p rest ih =>
    intro h
    rw [publicIpLoop_skip fetch p rest (h p (List.mem_cons_self p rest)),
      ih (fun q hq => h q (List.mem_cons_of_mem p hq))]

theorem locationLoop_skip (fetch : String → GeoResp) (ipArg : Option String) (p : String)
    (rest : List String) (h : locAttempt fetch ipArg p = none) :
    locationLoop fetch ipArg (p :: rest)
      = (p :: (locationLoop fetch ipArg rest).1, (locationLoop fetch ipArg rest).2) := by
  simp [locationLoop, h]

theorem locationLoop_hit (fetch : String → GeoResp) (ipArg : Option String) (p : String)
    (rest : List String) (d : GeolocationData) (h : locAttempt fetch ipArg p = some d) :
    locationLoop fetch ipArg (p :: rest) = ([p], some d) := by
  simp [locationLoop, h]

theorem locationLoop_all_fail (fetch : String → GeoResp) (ipArg : Option String) :
    ∀ ps : List String, (∀ p ∈ ps, locAttempt fetch ipArg p = none) →
      locationLoop fetch ipArg ps = (ps, none) := by
  intro ps
  induction ps with
  | nil => intro _; rfl
  | cons p rest ih =>
    intro h
    rw [locationLoop_skip fetch ipArg p rest (h p (List.mem_cons_self p rest)),
      ih (fun q hq => h q (List.mem_cons_of_mem p hq))]

theorem truthyOptStr_some_of_ne (ip : String) (h : ip ≠ "") : truthyOptStr (some ip) = true := by
  have hemp : ip.isEmpty = false := by
    rw [Bool.eq_false_iff]
    intro hemp
    exact h ((String.isEmpty_iff ip).mp hemp)
  simp [truthyOptStr, hemp]

/-! ## C1: fallback order with a mid-chain success -/

/-- C1: for a resolve call of the public-IP kind (resp. the geolocation
kind) with no live cache entry, with providers `[A, B, C]` where A's
attempt fails and B's yields a valid candidate, exactly A then B are
contacted in that order, C is never contacted, the returned value is
B's candidate, and (with caching enabled) that value is stored under
the resource's cache key (`"public-ip"` resp. `"location-<ip>"`) with
the configured TTL. -/
theorem fallback_order_first_success :
    (∀ (cfg : CacheConfig) (cache : CacheMap String) (now : Nat)
        (fetch : String → Option IpRespData) (A B C ipB : String),
      truthyOptStr (getCached cfg cache now "public-ip").1 = false →
      ipAttempt fetch A = none → ipAttempt fetch B = some ipB →
      (getPublicIp cfg cache now fetch [A, B, C]).1 = [A, B]
      ∧ (getPublicIp cfg cache now fetch [A, B, C]).2.1 = .ok ipB
      ∧ (cfg.enabled = true →
          mapLookup "public-ip" (getPublicIp cfg cache now fetch [A, B, C]).2.2
            = some ⟨ipB, now, cfg.ttl⟩))
    ∧ (∀ (cfg : CacheConfig) (cache : CacheMap GeolocationData) (now : Nat)
        (fetch : String → GeoResp) (A B C ip : String) (dB : GeolocationData)
        (cur : Except String String),
      ip ≠ "" → LocationManager.isValidIp ip = true →
      (getCached cfg cache now ("location-" ++ ip)).1 = none →
      locAttempt fetch (some ip) A = none → locAttempt fetch (some ip) B = some dB →
      (getLocation cfg cache now fetch [A, B, C] (some ip) cur).1 = [A, B]
      ∧ (getLocation cfg cache now fetch [A, B, C] (some ip) cur).2.1 = .ok dB
      ∧ (cfg.enabled = true →
          mapLookup ("location-" ++ ip)
              (getLocation cfg cache now fetch [A, B, C] (some ip) cur).2.2
            = some ⟨dB, now, cfg.ttl⟩)) := by
  constructor
  · intro cfg cache now fetch A B C ipB hmiss hA hB
    have hloop : publicIpLoop fetch [A, B, C] = ([A, B], some ipB) := by
      rw [publicIpLoop_skip fetch A [B, C] hA, publicIpLoop_hit fetch B [C] ipB hB]
    refine ⟨?_, ?_, ?_⟩
    · simp [getPublicIp, hmiss, hloop]
    · simp [getPublicIp, hmiss, hloop]
    · intro henabled
      simp [getPublicIp, hmiss, hloop, setCached, henabled, ttlOrDefault,
        mapLookup_mapSet_self]
  · intro cfg cache now fetch A B C ip dB cur hip hvalid hmiss hA hB
    have htr := truthyOptStr_some_of_ne ip hip
    have hloop : locationLoop fetch (some ip) [A, B, C] = ([A, B], some dB) := by
      rw [locationLoop_skip fetch (some ip) A [B, C] hA,
        locationLoop_hit fetch (some ip) B [C] dB hB]
    refine ⟨?_, ?_, ?_⟩
    · simp [getLocation, htr, hvalid, hmiss, hloop]
    · simp [getLocation, htr, hvalid, hmiss, hloop]
    · intro henabled
      simp [getLocation, htr, hvalid, hmiss, hloop, setCached, henabled, ttlOrDefault,
        mapLookup_mapSet_self]

/-- Witness for C1 on the repository's own provider lists, with an
empty cache: exactly the first two providers are contacted, the second
provider's value is returned and cached under the resource's key. -/
theorem fallback_order_first_success_witness :
    (getPublicIp ⟨true, 300000⟩ [] 5 fetchPubWitness publicIpProviders).1
        = ["https://api.ipify.org?format=json", "https://api64.ipify.org?format=json"]
    ∧ (getPublicIp ⟨true, 300000⟩ [] 5 fetchPubWitness publicIpProviders).2.1
        = .ok "203.0.113.195"
    ∧ mapLookup "public-ip" (getPublicIp ⟨true, 300000⟩ [] 5 fetchPubWitness publicIpProviders).2.2
        = some ⟨"203.0.113.195", 5, 300000⟩
    ∧ (getLocation ⟨true, 300000⟩ [] 5 fetchLocWitness locationProviders (some "8.8.8.8")
          (.error "unused")).1
        = ["https://ipapi.co", "https://ipwho.is"]
    ∧ (getLocation ⟨true, 300000⟩ [] 5 fetchLocWitness locationProviders (some "8.8.8.8")
          (.error "unused")).2.1
        = .ok geoWitnessData
    ∧ mapLookup "location-8.8.8.8"
        (getLocation ⟨true, 300000⟩ [] 5 fetchLocWitness locationProviders (some "8.8.8.8")
          (.error "unused")).2.2
        = some ⟨geoWitnessData, 5, 300000⟩ := by
  have hp := fallback_order_first_success.1 ⟨true, 300000⟩ [] 5 fetchPubWitness
    "https://api.ipify.org?format=json" "https://api64.ipify.org?format=json"
    "https://icanhazip.com" "203.0.113.195" (by decide) (by decide) (by decide)
  have hl := fallback_order_first_success.2 ⟨true, 300000⟩ [] 5 fetchLocWitness
    "https://ipapi.co" "https://ipwho.is" "https://ipinfo.io" "8.8.8.8" geoWitnessData
    (.error "unused") (by decide) (by decide) (by decide) (by decide) (by decide)
  exact ⟨hp.1, hp.2.1, hp.2.2 rfl, hl.1, hl.2.1, hl.2.2 rfl⟩

/-! ## C2: exhaustion error leaves the cache unchanged -/

/-- C2: when every provider's attempt fails in a resolve call with no
live cache entry, the call fails with the error naming the resource
kind (`"All IP service providers failed"` resp.
`"All geolocation providers failed"`), every provider was contacted,
and the cache after the call is exactly the cache as the initial read
left it — nothing is stored on the error path. -/
theorem exhaustion_error_no_cache :
    (∀ (cfg : CacheConfig) (cache : CacheMap String) (now : Nat)
        (fetch : String → Option IpRespData) (providers : List String),
      truthyOptStr (getCached cfg cache now "public-ip").1 = false →
      (∀ p ∈ providers, ipAttempt fetch p = none) →
      (getPublicIp cfg cache now fetch providers).1 = providers
      ∧ (getPublicIp cfg cache now fetch providers).2.1
          = .error "All IP service providers failed"
      ∧ (getPublicIp cfg cache now fetch providers).2.2
          = (getCached cfg cache now "public-ip").2)
    ∧ (∀ (cfg : CacheConfig) (cache : CacheMap GeolocationData) (now : Nat)
        (fetch : String → GeoResp) (providers : List String) (ip : String)
        (cur : Except String String),
      ip ≠ "" → LocationManager.isValidIp ip = true →
      (getCached cfg cache now ("location-" ++ ip)).1 = none →
      (∀ p ∈ providers, locAttempt fetch (some ip) p = none) →
      (getLocation cfg cache now fetch providers (some ip) cur).1 = providers
      ∧ (getLocation cfg cache now fetch providers (some ip) cur).2.1
          = .error "All geolocation providers failed"
      ∧ (getLocation cfg cache now fetch providers (some ip) cur).2.2
          = (getCached cfg cache now ("location-" ++ ip)).2) := by
  constructor
  · intro cfg cache now fetch providers hmiss hall
    have hloop := publicIpLoop_all_fail fetch providers hall
    exact ⟨by simp [getPublicIp, hmiss, hloop], by simp [getPublicIp, hmiss, hloop],
      by simp [getPublicIp, hmiss, hloop]⟩
  · intro cfg cache now fetch providers ip cur hip hvalid hmiss hall
    have htr := truthyOptStr_some_of_ne ip hip
    have hloop := locationLoop_all_fail fetch (some ip) providers hall
    exact ⟨by simp [getLocation, htr, hvalid, hmiss, hloop],
      by simp [getLocation, htr, hvalid, hmiss, hloop],
      by simp [getLocation, htr, hvalid, hmiss, hloop]⟩

/-- Witness for C2 on the repository's provider lists with an empty
cache and an oracle that always fails. -/
theorem exhaustion_error_no_cache_witness :
    (getPublicIp ⟨true, 300000⟩ [] 5 (fun _ => none) publicIpProviders).2.1
        = .error "All IP service providers failed"
    ∧ (getPublicIp ⟨true, 300000⟩ [] 5 (fun _ => none) publicIpProviders).2.2 = []
    ∧ (getLocation ⟨true, 300000⟩ [] 5 (fun _ => .fail) locationProviders (some "8.8.8.8")
          (.error "unused")).2.1
        = .error "All geolocation providers failed"
    ∧ (getLocation ⟨true, 300000⟩ [] 5 (fun _ => .fail) locationProviders (some "8.8.8.8")
          (.error "unused")).2.2 = [] := by
  have hp := exhaustion_error_no_cache.1 ⟨true, 300000⟩ [] 5 (fun _ => none) publicIpProviders
    (by decide) (fun p _ => rfl)
  have hl := exhaustion_error_no_cache.2 ⟨true, 300000⟩ [] 5 (fun _ => .fail) locationProviders
    "8.8.8.8" (.error "unused") (by decide) (by decide) (by decide) (fun p _ => rfl)
  exact ⟨hp.2.1, hp.2.2, hl.2.1, hl.2.2⟩

/-! ## List lemmas for the validators -/

theorem all_congr_of_mem {α : Type} (l : List α) (p q : α → Bool)
    (h : ∀ a ∈ l, p a = q a) : l.all p = l.all q := by
  cases hq : l.all q with
  | true =>
    rw [List.all_eq_true] at hq
    exact List.all_eq_true.mpr fun a ha => (h a ha).trans (hq a ha)
  | false =>
    rw [List.all_eq_false] at hq
    obtain ⟨x, hx, hqx⟩ := hq
    rw [List.all_eq_false]
    refine ⟨x, hx, fun hc => hqx ?_⟩
    rw [← h x hx]
    exact hc

theorem splitOnChar_ne_nil (sep : Char) (l : List Char) : splitOnChar sep l ≠ [] := by
  cases l with
  | nil => simp [splitOnChar]
  | cons c cs =>
    simp only [splitOnChar]
    split
    · simp
    · split <;> simp

theorem length_splitOnChar (sep : Char) (l : List Char) :
    (splitOnChar sep l).length = countChar sep l + 1 := by
  induction l with
  | nil => rfl
  | cons c cs ih =>
    by_cases h : c = sep
    · simp only [splitOnChar, countChar, if_pos h, List.length_cons]
      omega
    · cases hr : splitOnChar sep cs with
      | nil => exact absurd hr (splitOnChar_ne_nil sep cs)
      | cons g gs =>
        rw [hr] at ih
        simp only [splitOnChar, countChar, if_neg h, hr, List.length_cons] at ih ⊢
        omega

theorem countChar_append (x : Char) (a b : List Char) :
    countChar x (a ++ b) = countChar x a + countChar x b := by
  induction a with
  | nil => simp [countChar]
  | cons c cs ih =>
    simp only [List.cons_append, countChar, List.append_eq, ih]
    omega

theorem mem_of_countChar_pos (x : Char) (l : List Char) (h : 0 < countChar x l) : x ∈ l := by
  induction l with
  | nil => simp [countChar] at h
  | cons c cs ih =>
    by_cases hc : c = x
    · rw [hc]; exact List.mem_cons_self x cs
    · simp only [countChar, if_neg hc, Nat.zero_add] at h
      exact List.mem_cons_of_mem c (ih h)

theorem splitOnChar_append_sep (sep : Char) (a b : List Char) :
    splitOnChar sep (a ++ sep :: b) = splitOnChar sep a ++ splitOnChar sep b := by
  induction a with
  | nil => simp [splitOnChar]
  | cons c cs ih =>
    by_cases h : c = sep
    · simp only [List.cons_append, splitOnChar, if_pos h, List.append_eq, ih]
    · cases hr : splitOnChar sep cs with
      | nil => exact absurd hr (splitOnChar_ne_nil sep cs)
      | cons g gs =>
        simp only [List.cons_append, splitOnChar, if_neg h, List.append_eq, ih, hr,
          List.cons_append]

theorem splitOnChar_eq_singleton (sep : Char) (l : List Char) (h : sep ∉ l) :
    splitOnChar sep l = [l] := by
  induction l with
  | nil => rfl
  | cons c cs ih =>
    simp only [List.mem_cons] at h
    push_neg at h
    have hc : ¬ c = sep := fun hh => h.1 hh.symm
    simp [splitOnChar, hc, ih h.2]

theorem exists_mem_splitOnChar (sep c : Char) (l : List Char) (hc : c ∈ l) (hne : c ≠ sep) :
    ∃ p ∈ splitOnChar sep l, c ∈ p := by
  induction l with
  | nil => cases hc
  | cons d ds ih =>
    by_cases hd : d = sep
    · have hcds : c ∈ ds := by
        rcases List.mem_cons.mp hc with h | h
        · exact absurd (h.trans hd) hne
        · exact h
      obtain ⟨p, hp, hcp⟩ := ih hcds
      exact ⟨p, by simp [splitOnChar, hd]; right; exact hp, hcp⟩
    · cases hr : splitOnChar sep ds with
      | nil => exact absurd hr (splitOnChar_ne_nil sep ds)
      | cons g gs =>
        rcases List.mem_cons.mp hc with h | h
        · refine ⟨d :: g, by simp [splitOnChar, hd, hr], ?_⟩
          rw [h]
          exact List.mem_cons_self d g
        · obtain ⟨p, hp, hcp⟩ := ih h
          rw [hr] at hp
          rcases List.mem_cons.mp hp with hpg | hpgs
          · refine ⟨d :: g, by simp [splitOnChar, hd, hr], ?_⟩
            rw [← hpg]
            exact List.mem_cons_of_mem d hcp
          · refine ⟨p, ?_, hcp⟩
            simp only [splitOnChar, if_neg hd, hr]
            exact List.mem_cons_of_mem (d :: g) hpgs

theorem sfdc_none_cdc (l : List Char) (h : splitFirstDoubleColon l = none) :
    countDoubleColon l = 0 := by
  induction l using countDoubleColon.induct with
  | case1 => rfl
  | case2 c => rfl
  | case3 c1 c2 rest hcond ih =>
    simp only [splitFirstDoubleColon, if_pos hcond] at h
    exact Option.noConfusion h
  | case4 c1 c2 rest hcond ih =>
    simp only [splitFirstDoubleColon, if_neg hcond] at h
    simp only [countDoubleColon, if_neg hcond]
    cases hs : splitFirstDoubleColon (c2 :: rest) with
    | none => exact ih hs
    | some pr => rw [hs] at h; cases h

theorem sfdc_some (l : List Char) (a b : List Char)
    (h : splitFirstDoubleColon l = some (a, b)) :
    l = a ++ ':' :: ':' :: b ∧ countDoubleColon l = countDoubleColon b + 1 := by
  induction l using countDoubleColon.induct generalizing a b with
  | case1 => cases h
  | case2 c => cases h
  | case3 c1 c2 rest hcond ih =>
    simp only [splitFirstDoubleColon, if_pos hcond] at h
    simp only [Option.some.injEq, Prod.mk.injEq] at h
    obtain ⟨ha, hb⟩ := h
    subst ha
    subst hb
    simp only [Bool.and_eq_true, decide_eq_true_eq] at hcond
    obtain ⟨hc1, hc2⟩ := hcond
    subst hc1
    subst hc2
    constructor
    · rfl
    · simp [countDoubleColon]
  | case4 c1 c2 rest hcond ih =>
    simp only [splitFirstDoubleColon, if_neg hcond] at h
    cases hs : splitFirstDoubleColon (c2 :: rest) with
    | none => rw [hs] at h; cases h
    | some pr =>
      obtain ⟨a', b'⟩ := pr
      rw [hs] at h
      simp only [Option.some.injEq, Prod.mk.injEq] at h
      obtain ⟨ha, hb⟩ := h
      obtain ⟨hl, hc⟩ := ih a' b' hs
      subst ha
      subst hb
      constructor
      · rw [List.cons_append, ← hl]
      · simp only [countDoubleColon, if_neg hcond]
        exact hc

theorem colon_mem_of_cdc_pos (l : List Char) (h : 1 ≤ countDoubleColon l) : ':' ∈ l := by
  cases hs : splitFirstDoubleColon l with
  | none => rw [sfdc_none_cdc l hs] at h; omega
  | some pr =>
    obtain ⟨a, b⟩ := pr
    obtain ⟨hl, _⟩ := sfdc_some l a b hs
    rw [hl]
    exact List.mem_append_right a (List.mem_cons_self ':' (':' :: b))

/-! ## IPv4 validator: code vs spec -/

set_option maxRecDepth 4000 in
theorem natToDigits_le255_facts :
    ∀ n : Fin 256, (natToDigits n.1).length ≤ 3 ∧ (natToDigits n.1).all isDigitChar = true := by
  decide

theorem ipv4RegexTest_false_of_colon (l : List Char) (h : ':' ∈ l) :
    ipv4RegexTest l = false := by
  obtain ⟨p, hp, hcp⟩ := exists_mem_splitOnChar '.' ':' l h (by decide)
  unfold ipv4RegexTest
  have hall : (splitOnChar '.' l).all
      (fun p => decide (1 ≤ p.length) && decide (p.length ≤ 3) && p.all isDigitChar) = false := by
    rw [List.all_eq_false]
    refine ⟨p, hp, ?_⟩
    have hpd : p.all isDigitChar = false := by
      rw [List.all_eq_false]
      exact ⟨':', hcp, by decide⟩
    simp [hpd]
  simp [hall]

theorem regexTest_of_specIPv4 (l : List Char) (h : specIPv4 l = true) :
    ipv4RegexTest l = true := by
  unfold specIPv4 at h
  unfold ipv4RegexTest
  simp only [Bool.and_eq_true, List.all_eq_true, decide_eq_true_eq] at h ⊢
  obtain ⟨h4, hall⟩ := h
  refine ⟨h4, fun p hp => ?_⟩
  obtain ⟨⟨⟨hne, hdig⟩, hle⟩, hcanon⟩ := hall p hp
  have hlen3 : (natToDigits (parseDigits p)).length ≤ 3 :=
    (natToDigits_le255_facts ⟨parseDigits p, by omega⟩).1
  have hnonnil : p ≠ [] := by
    intro hnil
    rw [hnil] at hne
    simp at hne
  refine ⟨⟨Nat.one_le_iff_ne_zero.mpr (fun h0 => hnonnil (List.eq_nil_of_length_eq_zero h0)), ?_⟩,
    hdig⟩
  rw [hcanon]
  exact hlen3

theorem ipv4_fallback_eq_spec (l : List Char) (hdot : '.' ∈ l) :
    fallbackIpValidationL l = specIPv4 l := by
  have hv6 : ipv6RegexTest l = false := by
    unfold ipv6RegexTest
    have hall : l.all (fun c => isHexDigitJS c || (c = ':' : Bool)) = false := by
      rw [List.all_eq_false]
      exact ⟨'.', hdot, by decide⟩
    simp [hall]
  by_cases hreg : ipv4RegexTest l = true
  · simp only [fallbackIpValidationL, specIPv4]
    rw [if_pos hreg]
    have h4 : ((splitOnChar '.' l).length = 4 : Bool) = true := by
      unfold ipv4RegexTest at hreg
      simp only [Bool.and_eq_true] at hreg
      exact hreg.1
    rw [h4, Bool.true_and]
    unfold ipv4RegexTest at hreg
    simp only [Bool.and_eq_true, List.all_eq_true, decide_eq_true_eq] at hreg
    refine all_congr_of_mem _ _ _ fun p hp => ?_
    obtain ⟨⟨h1, h3⟩, hdig⟩ := hreg.2 p hp
    have hne : p.isEmpty = false := by
      cases p with
      | nil => simp at h1
      | cons c cs => rfl
    have hdigb : p.all isDigitChar = true := List.all_eq_true.mpr hdig
    simp [hne, hdigb]
  · simp only [fallbackIpValidationL]
    rw [if_neg hreg, hv6]
    simp only [Bool.false_and, Bool.false_eq_true, if_false]
    cases hspec : specIPv4 l with
    | false => rfl
    | true => exact absurd (regexTest_of_specIPv4 l hspec) hreg

/-- Counterexample to C5 as stated: the caller-parameter validator
`LocationManager.isValidIp` accepts `"999.0.0.0"` (octet out of range)
and `"01.2.3.4"` (non-canonical octet text), both of which the claimed
rule rejects; the provider-output fallback validator rejects them. -/
theorem ipv4_validator_counterexample :
    LocationManager.isValidIp "999.0.0.0" = true
    ∧ specIPv4 "999.0.0.0".data = false
    ∧ LocationManager.isValidIp "01.2.3.4" = true
    ∧ specIPv4 "01.2.3.4".data = false
    ∧ fallbackIpValidation "999.0.0.0" = false
    ∧ fallbackIpValidation "01.2.3.4" = false := by
  decide

/-- C5 (amended): `IpManager.fallbackIpValidation` (used on provider
output) accepts a dotted string as an IPv4 literal exactly when it is
four dot-separated decimal groups, each in `[0,255]` with canonical
decimal text; every spec-valid IPv4 literal is accepted by it; but the
caller-parameter validator `LocationManager.isValidIp` only checks the
`(\d{1,3}\.){3}\d{1,3}` shape — it accepts every spec-valid literal yet
also accepts out-of-range and non-canonical octets (for example
`"999.0.0.0"` and `"01.2.3.4"`, per the counterexample). -/
theorem ipv4_validator_amended :
    (∀ s : String, '.' ∈ s.data → fallbackIpValidation s = specIPv4 s.data)
    ∧ (∀ s : String, specIPv4 s.data = true → fallbackIpValidation s = true)
    ∧ (∀ s : String, specIPv4 s.data = true → LocationManager.isValidIp s = true) := by
  refine ⟨fun s hdot => ipv4_fallback_eq_spec s.data hdot, fun s hspec => ?_, fun s hspec => ?_⟩
  · have hdot : '.' ∈ s.data := by
      unfold specIPv4 at hspec
      simp only [Bool.and_eq_true, decide_eq_true_eq] at hspec
      have hcount : countChar '.' s.data + 1 = 4 := by
        rw [← length_splitOnChar '.' s.data]
        exact hspec.1
      exact mem_of_countChar_pos '.' s.data (by omega)
    show fallbackIpValidationL s.data = true
    rw [ipv4_fallback_eq_spec s.data hdot]
    exact hspec
  · unfold LocationManager.isValidIp
    rw [regexTest_of_specIPv4 s.data hspec]
    rfl

/-- Witness for C5's amended theorem at `"192.168.1.1"` (spec-valid,
accepted by both validators) and at the dotted but invalid
`"256.1.1.1"`. -/
theorem ipv4_validator_amended_witness :
    fallbackIpValidation "192.168.1.1" = specIPv4 "192.168.1.1".data
    ∧ fallbackIpValidation "192.168.1.1" = true
    ∧ LocationManager.isValidIp "192.168.1.1" = true
    ∧ fallbackIpValidation "256.1.1.1" = specIPv4 "256.1.1.1".data := by
  refine ⟨ipv4_validator_amended.1 "192.168.1.1" (by decide),
    ipv4_validator_amended.2.1 "192.168.1.1" (by decide),
    ipv4_validator_amended.2.2 "192.168.1.1" (by decide),
    ipv4_validator_amended.1 "256.1.1.1" (by decide)⟩

/-! ## IPv6 validator: code vs spec -/

theorem side_parts_ok (a : List Char)
    (ha : a.isEmpty = true ∨ sideGroupsOK a = true) :
    ∀ p ∈ splitOnChar ':' a, p.isEmpty = true ∨ isHexGroup p = true := by
  intro p hp
  rcases ha with ha | ha
  · have hanil : a = [] := by
      cases a with
      | nil => rfl
      | cons c cs => simp at ha
    subst hanil
    simp only [splitOnChar, List.mem_singleton] at hp
    subst hp
    left
    rfl
  · right
    exact List.all_eq_true.mp ha p hp

theorem fallback_ipv6_accepts (l : List Char)
    (hmem : ':' ∈ l)
    (hlo : 2 ≤ countChar ':' l) (hhi : countChar ':' l ≤ 7)
    (hcdc : countDoubleColon l ≤ 1)
    (hparts : ∀ p ∈ splitOnChar ':' l, p.isEmpty = true ∨ isHexGroup p = true) :
    fallbackIpValidationL l = true := by
  have hreg4 : ipv4RegexTest l = false := ipv4RegexTest_false_of_colon l hmem
  have hchars : ∀ c ∈ l, (isHexDigitJS c || (c = ':' : Bool)) = true := by
    intro c hc
    by_cases hcc : c = ':'
    · simp [hcc]
    · obtain ⟨p, hp, hcp⟩ := exists_mem_splitOnChar ':' c l hc hcc
      rcases hparts p hp with hemp | hhex
      · cases p with
        | nil => cases hcp
        | cons d ds => simp at hemp
      · unfold isHexGroup at hhex
        simp only [Bool.and_eq_true, List.all_eq_true] at hhex
        simp [hhex.2 c hcp]
  have hne : l ≠ [] := fun h => by subst h; cases hmem
  have hv6 : ipv6RegexTest l = true := by
    unfold ipv6RegexTest
    rw [List.all_eq_true.mpr hchars]
    have : l.isEmpty = false := by
      cases l with
      | nil => exact absurd rfl hne
      | cons c cs => rfl
    simp [this]
  have hany : (l.any fun c => (c = ':' : Bool)) = true :=
    List.any_eq_true.mpr ⟨':', hmem, by simp⟩
  unfold fallbackIpValidationL
  rw [if_neg (by rw [hreg4]; exact Bool.false_ne_true)]
  rw [hv6, hany]
  rw [if_pos (by rfl)]
  have hc1 : decide (countChar ':' l < 2) = false := by
    simp only [decide_eq_false_iff_not]
    omega
  have hc2 : decide (7 < countChar ':' l) = false := by
    simp only [decide_eq_false_iff_not]
    omega
  rw [hc1, hc2]
  rw [if_neg (by simp)]
  rw [if_neg (by omega : ¬ 1 < countDoubleColon l)]
  exact List.all_eq_true.mpr fun p hp => by
    rcases hparts p hp with h | h <;> simp [h]

theorem specIPv6_accepted (l : List Char) (hspec : specIPv6 l = true)
    (hle : countChar ':' l ≤ 7) : fallbackIpValidationL l = true := by
  cases hs : splitFirstDoubleColon l with
  | none =>
    unfold specIPv6 at hspec
    rw [hs] at hspec
    simp only [Bool.and_eq_true, decide_eq_true_eq] at hspec
    obtain ⟨h8, hall⟩ := hspec
    have hlen := length_splitOnChar ':' l
    have hcount : countChar ':' l = 7 := by omega
    have hmem : ':' ∈ l := mem_of_countChar_pos ':' l (by omega)
    refine fallback_ipv6_accepts l hmem (by omega) (by omega) ?_ ?_
    · rw [sfdc_none_cdc l hs]
      omega
    · intro p hp
      right
      exact List.all_eq_true.mp hall p hp
  | some pr =>
    obtain ⟨a, b⟩ := pr
    unfold specIPv6 at hspec
    rw [hs] at hspec
    simp only [Bool.and_eq_true, decide_eq_true_eq, Bool.or_eq_true] at hspec
    obtain ⟨⟨⟨hbnone, hsa⟩, hsb⟩, hcnt⟩ := hspec
    obtain ⟨hl, hcdc⟩ := sfdc_some l a b hs
    have hcdcb : countDoubleColon b = 0 := sfdc_none_cdc b hbnone
    have hcdc1 : countDoubleColon l = 1 := by rw [hcdc, hcdcb]
    have hmem : ':' ∈ l := colon_mem_of_cdc_pos l (by omega)
    have hlo : 2 ≤ countChar ':' l := by
      have h2 : countChar ':' (':' :: ':' :: b) = 2 + countChar ':' b := by
        simp [countChar]
        omega
      rw [hl, countChar_append, h2]
      omega
    have hsplit : splitOnChar ':' l = splitOnChar ':' a ++ ([] :: splitOnChar ':' b) := by
      rw [hl, splitOnChar_append_sep ':' a (':' :: b)]
      congr 1
    refine fallback_ipv6_accepts l hmem hlo hle (by omega) ?_
    intro p hp
    rw [hsplit] at hp
    rcases List.mem_append.mp hp with hpa | hpb
    · exact side_parts_ok a hsa p hpa
    · rcases List.mem_cons.mp hpb with hpe | hpb'
      · left
        rw [hpe]
        rfl
      · exact side_parts_ok b hsb p hpb'

theorem fallback_rejects_two_dc (l : List Char) (h : 2 ≤ countDoubleColon l) :
    fallbackIpValidationL l = false := by
  have hmem : ':' ∈ l := colon_mem_of_cdc_pos l (by omega)
  have hreg4 := ipv4RegexTest_false_of_colon l hmem
  unfold fallbackIpValidationL
  rw [if_neg (by rw [hreg4]; exact Bool.false_ne_true)]
  by_cases hg : (ipv6RegexTest l && l.any fun c => (c = ':' : Bool)) = true
  · rw [if_pos hg]
    by_cases hr : (decide (countChar ':' l < 2) || decide (7 < countChar ':' l)) = true
    · rw [if_pos hr]
    · rw [if_neg hr, if_pos (by omega : 1 < countDoubleColon l)]
  · rw [if_neg hg]

theorem fallback_rejects_eight_colons (l : List Char) (h : 8 ≤ countChar ':' l) :
    fallbackIpValidationL l = false := by
  have hmem : ':' ∈ l := mem_of_countChar_pos ':' l (by omega)
  have hreg4 := ipv4RegexTest_false_of_colon l hmem
  unfold fallbackIpValidationL
  rw [if_neg (by rw [hreg4]; exact Bool.false_ne_true)]
  by_cases hg : (ipv6RegexTest l && l.any fun c => (c = ':' : Bool)) = true
  · rw [if_pos hg]
    have hr : (decide (countChar ':' l < 2) || decide (7 < countChar ':' l)) = true := by
      have h7 : 7 < countChar ':' l := by omega
      simp [h7]
    rw [if_pos hr]
  · rw [if_neg hg]

/-- Counterexample to C6 as stated: `"1:2:3"` (three groups, no `::` —
not a standard IPv6 literal, which the claim requires rejected) is
accepted, while `"1:2:3:4:5:6:7::"` (a standard literal: seven explicit
groups plus the `::` compression, i.e. eight colons) is rejected. -/
theorem ipv6_validator_counterexample :
    fallbackIpValidation "1:2:3" = true
    ∧ specIPv6 "1:2:3".data = false
    ∧ countDoubleColon "1:2:3".data = 0
    ∧ (splitOnChar ':' "1:2:3".data).length = 3
    ∧ fallbackIpValidation "1:2:3:4:5:6:7::" = false
    ∧ specIPv6 "1:2:3:4:5:6:7::".data = true := by
  decide

/-- C6 (amended): the validator rejects every string with two or more
(non-overlapping) `::` occurrences and every string with more than 8
colon-separated groups (i.e. 8 or more colons); and it accepts every
standard IPv6 literal with at most 7 colons (which covers all
uncompressed 8-group literals and all compressed literals except those
with seven explicit groups plus a `::`).  It is not an exact
characterization of standard notation: per the counterexample it also
accepts under-full colon-hex strings such as `"1:2:3"` (no 8-group
requirement when `::` is absent) and rejects the standard
`"1:2:3:4:5:6:7::"` (eight colons). -/
theorem ipv6_validator_amended :
    (∀ s : String, 2 ≤ countDoubleColon s.data → fallbackIpValidation s = false)
    ∧ (∀ s : String, 8 ≤ countChar ':' s.data → fallbackIpValidation s = false)
    ∧ (∀ s : String, specIPv6 s.data = true → countChar ':' s.data ≤ 7 →
        fallbackIpValidation s = true) :=
  ⟨fun s h => fallback_rejects_two_dc s.data h,
   fun s h => fallback_rejects_eight_colons s.data h,
   fun s h1 h2 => specIPv6_accepted s.data h1 h2⟩

/-- Witness for C6's amended theorem: a double-compressed literal and a
9-group literal are rejected; the spec's example literal and `"::1"` are
accepted. -/
theorem ipv6_validator_amended_witness :
    fallbackIpValidation "1::2::3" = false
    ∧ fallbackIpValidation "1:2:3:4:5:6:7:8:9" = false
    ∧ fallbackIpValidation "2001:0db8:85a3:0000:0000:8a2e:0370:7334" = true
    ∧ fallbackIpValidation "::1" = true := by
  refine ⟨ipv6_validator_amended.1 "1::2::3" (by decide),
    ipv6_validator_amended.2.1 "1:2:3:4:5:6:7:8:9" (by decide),
    ipv6_validator_amended.2.2 "2001:0db8:85a3:0000:0000:8a2e:0370:7334" (by decide) (by decide),
    ipv6_validator_amended.2.2 "::1" (by decide) (by decide)⟩

end NetworkInsight
